import Mathlib

/-!
# Verification of the VisualHAZOP annotation engine

Shallow embedding of the interactive 2D annotation engine of
`pdf_viewer.py` / `models.py` (classes `PDFViewer`, `Node`, `Deviation`,
`HAZOPData`).

Embedding conventions:

* Python floats are modelled as exact rationals (`ℚ`); `int(x)` is
  truncation toward zero (`ratTrunc`).
* The source compares euclidean distances (`math.sqrt(...)`) only with
  each other and with a nonnegative tolerance.  Since `Real.sqrt` is
  strictly monotone on nonnegatives, every such comparison is embedded
  as the corresponding comparison of *squared* distances
  (`sqrt a < sqrt b ↔ a < b`, and `sqrt a ≤ t ↔ 0 ≤ t ∧ a ≤ t ^ 2`),
  which is exact and keeps the development computable.
* The viewer is modelled in its loaded state: the `if not self.doc` /
  `if not self.photo` early returns guard every modelled operation in
  the source and are dropped together with the document handle itself.
* Python mutates a `Node` object aliased by the store and by
  `current_node` / `editing_node`.  During line creation the aliased
  node is by construction the store's last entry, so the alias is
  modelled by rewriting that entry (`setLastNode`); during point
  editing the session reference `editing_node` carries the updated
  point list.
* UI-only effects (rendering, context menus, confirmation dialogs,
  focus, parent callbacks) have no model content; `delete_node` models
  the confirmed branch of its dialog.
-/

/-- Python `int(x)` on an exact rational: truncation toward zero. -/
def ratTrunc (q : ℚ) : ℤ := if 0 ≤ q then ⌊q⌋ else ⌈q⌉

/-- `models.Deviation`: a structured note attached to a node. -/
structure Deviation where
  deviation : String
  causes : List String
  consequence : String
  safeguards : List String
  recommendations : List String
  comments : String
  minimized : Bool
deriving DecidableEq

/-- `models.Node`: a named, styled polyline annotation on one page. -/
structure Node where
  name : String
  color : String
  thickness : ℤ
  transparency : ℚ
  has_arrow : Bool
  font_size : ℤ
  points : List (ℚ × ℚ)
  deviations : List Deviation
  page_number : ℤ
deriving DecidableEq

/-- `models.HAZOPData`: the annotation store. -/
structure HAZOPData where
  pdf_path : String
  nodes : List Node
deriving DecidableEq

/-- `HAZOPData.add_node`: `self.nodes.append(node)`. -/
def add_node (d : HAZOPData) (n : Node) : HAZOPData :=
  { d with nodes := d.nodes ++ [n] }

/-- Python `list.remove`: delete the first element equal to `n`
(dataclass equality is field-wise equality). -/
def removeFirst : List Node → Node → List Node
  | [], _ => []
  | m :: ms, n => if m = n then ms else m :: removeFirst ms n

/-- `HAZOPData.remove_node`: `if node in self.nodes: self.nodes.remove(node)`. -/
def remove_node (d : HAZOPData) (n : Node) : HAZOPData :=
  if n ∈ d.nodes then { d with nodes := removeFirst d.nodes n } else d

/-- `HAZOPData.get_nodes_for_page`: the page-filtered node list
(stable order). -/
def nodesForPage : List Node → ℤ → List Node
  | [], _ => []
  | n :: ns, p =>
      if n.page_number = p then n :: nodesForPage ns p else nodesForPage ns p

/-- The view/session state of `PDFViewer` (the fields read or written by
the modelled operations). -/
structure Viewer where
  scale : ℚ
  zoom_level : ℚ
  pan_x : ℚ
  pan_y : ℚ
  base_zoom : ℚ
  fit_to_window : Bool
  current_page : ℤ
  hazop_data : HAZOPData
  creating_line : Bool
  current_line_points : List (ℚ × ℚ)
  current_node : Option Node
  selected_node : Option Node
  editing_node : Option Node
  dragging_point : Option ℕ
  drag_start_x : ℚ
  drag_start_y : ℚ
  drag_original_point : Option (ℚ × ℚ)
deriving DecidableEq

/-- `self.scale * self.base_zoom * self.zoom_level`, the full
document-to-screen factor used by the coordinate conversions. -/
def effective_scale (v : Viewer) : ℚ := v.scale * v.base_zoom * v.zoom_level

/-- `PDFViewer.screen_to_pdf_coords` (document loaded):
`return int(pdf_x), int(pdf_y)`. -/
def screen_to_pdf_coords (v : Viewer) (x y : ℚ) : ℚ × ℚ :=
  ((ratTrunc ((x - v.pan_x) / effective_scale v) : ℤ),
   (ratTrunc ((y - v.pan_y) / effective_scale v) : ℤ))

/-- `PDFViewer.pdf_to_screen_coords`: `return int(screen_x), int(screen_y)`. -/
def pdf_to_screen_coords (v : Viewer) (x y : ℚ) : ℚ × ℚ :=
  ((ratTrunc (x * effective_scale v + v.pan_x) : ℤ),
   (ratTrunc (y * effective_scale v + v.pan_y) : ℤ))

/-- `max(0.1, min(5.0, new_zoom))`, the clamp used by every zoom path. -/
def clampZoom (z : ℚ) : ℚ := max (1 / 10) (min 5 z)

/-- `PDFViewer.zoom_in` with an explicit mouse position (state update
only; the subsequent re-render is not part of the model). -/
def zoom_in (v : Viewer) (factor mouse_x mouse_y : ℚ) : Viewer :=
  let pdf := screen_to_pdf_coords v mouse_x mouse_y
  let old_zoom := v.zoom_level
  let new_zoom := clampZoom (old_zoom * factor)
  if new_zoom ≠ old_zoom then
    let old_effective_scale := v.scale * v.base_zoom * old_zoom
    let zoom_quot := if 0 < old_zoom then new_zoom / old_zoom else 1
    let new_effective_scale := old_effective_scale * zoom_quot
    { v with
      zoom_level := new_zoom
      fit_to_window := false
      pan_x := v.pan_x + (mouse_x - (pdf.1 * new_effective_scale + v.pan_x))
      pan_y := v.pan_y + (mouse_y - (pdf.2 * new_effective_scale + v.pan_y)) }
  else v

/-- `PDFViewer.zoom_out`: divides the zoom level by `factor` and fixes
the pan with the effective scale computed after the assignment. -/
def zoom_out (v : Viewer) (factor mouse_x mouse_y : ℚ) : Viewer :=
  let pdf := screen_to_pdf_coords v mouse_x mouse_y
  let new_zoom := clampZoom (v.zoom_level / factor)
  if new_zoom ≠ v.zoom_level then
    let es := v.scale * v.base_zoom * new_zoom
    { v with
      zoom_level := new_zoom
      fit_to_window := false
      pan_x := v.pan_x + (mouse_x - (pdf.1 * es + v.pan_x))
      pan_y := v.pan_y + (mouse_y - (pdf.2 * es + v.pan_y)) }
  else v

/-- `PDFViewer.on_mouse_wheel` (Ctrl held): its body is textually the
body of `zoom_in` with factor `1.1` (scroll up) or `1/1.1` (down). -/
def on_mouse_wheel (v : Viewer) (delta : ℤ) (mouse_x mouse_y : ℚ) : Viewer :=
  zoom_in v (if 0 < delta then 11 / 10 else 10 / 11) mouse_x mouse_y

/-- `PDFViewer.reset_zoom`. -/
def reset_zoom (v : Viewer) : Viewer :=
  { v with zoom_level := 1, fit_to_window := true, pan_x := 0, pan_y := 0 }

/-- A user zoom gesture, with its parameters. -/
inductive ZoomOp
  | zoomIn (factor mouse_x mouse_y : ℚ)
  | zoomOut (factor mouse_x mouse_y : ℚ)
  | wheel (delta : ℤ) (mouse_x mouse_y : ℚ)
  | reset

/-- Dispatch one zoom gesture to its handler. -/
def applyZoomOp (v : Viewer) : ZoomOp → Viewer
  | .zoomIn f mx my => zoom_in v f mx my
  | .zoomOut f mx my => zoom_out v f mx my
  | .wheel d mx my => on_mouse_wheel v d mx my
  | .reset => reset_zoom v

/-- The `PDFViewer.__init__` state (empty store, zoom `1.0`,
`base_zoom = 1.5`, zero pan). -/
def initialViewer : Viewer :=
  { scale := 1, zoom_level := 1, pan_x := 0, pan_y := 0, base_zoom := 3 / 2,
    fit_to_window := true, current_page := 0,
    hazop_data := { pdf_path := "", nodes := [] },
    creating_line := false, current_line_points := [], current_node := none,
    selected_node := none, editing_node := none, dragging_point := none,
    drag_start_x := 0, drag_start_y := 0, drag_original_point := none }

/-- A store with the given nodes (and no document path). -/
def mkStore (ns : List Node) : HAZOPData := { pdf_path := "", nodes := ns }

/-- Squared euclidean distance (the source's
`math.sqrt((..)**2 + (..)**2)`, embedded squared). -/
def sqDist (p q : ℚ × ℚ) : ℚ := (p.1 - q.1) ^ 2 + (p.2 - q.2) ^ 2

/-- `PDFViewer.point_to_line_distance`, embedded squared: the
projection-clamped distance from `p` to segment `[a, b]`. -/
def point_to_line_sqdist (p a b : ℚ × ℚ) : ℚ :=
  let dx := b.1 - a.1
  let dy := b.2 - a.2
  if dx = 0 ∧ dy = 0 then sqDist p a
  else
    let t := max 0 (min 1 (((p.1 - a.1) * dx + (p.2 - a.2) * dy) / (dx * dx + dy * dy)))
    sqDist p (a.1 + t * dx, a.2 + t * dy)

/-- The document-space tolerance computed by `find_node_at_point`:
`tolerance / self.scale if self.scale > 0 else tolerance`. -/
def node_tolerance_pdf (v : Viewer) (tolerance : ℚ) : ℚ :=
  if 0 < v.scale then tolerance / v.scale else tolerance

/-- `self.base_zoom * self.zoom_level`, the raster magnification. -/
def render_scale (v : Viewer) : ℚ := v.base_zoom * v.zoom_level

/-- The document-space tolerance computed by `find_point_near` and
`find_segment_for_point`:
`tolerance / render_scale if render_scale > 0 else tolerance`. -/
def render_tolerance_pdf (v : Viewer) (tolerance : ℚ) : ℚ :=
  if 0 < render_scale v then tolerance / render_scale v else tolerance

/-- The segments of a polyline: `points[i], points[i+1]` for
`i in range(len(points) - 1)`. -/
def consecutivePairs (ps : List (ℚ × ℚ)) : List ((ℚ × ℚ) × (ℚ × ℚ)) :=
  ps.zip ps.tail

/-- The squared distances examined for one node by
`find_node_at_point`: every segment, then every raw endpoint, in
source order. -/
def nodeCandidateSqDists (pt : ℚ × ℚ) (n : Node) : List ℚ :=
  (consecutivePairs n.points).map (fun s => point_to_line_sqdist pt s.1 s.2)
    ++ n.points.map (fun p => sqDist p pt)

/-- `if dist < closest_distance: closest_distance = dist; closest_node = node`
(with `closest_distance` initially infinite, so the first candidate
always wins). -/
def updateBest (best : Option (Node × ℚ)) (n : Node) (d : ℚ) : Option (Node × ℚ) :=
  match best with
  | none => some (n, d)
  | some (m, dm) => if d < dm then some (n, d) else some (m, dm)

/-- One iteration of `find_node_at_point`'s node loop: nodes with fewer
than 2 points are skipped (`continue`), otherwise every candidate
distance of the node updates the running closest pair. -/
def scanNode (pt : ℚ × ℚ) (best : Option (Node × ℚ)) (n : Node) : Option (Node × ℚ) :=
  if n.points.length < 2 then best
  else (nodeCandidateSqDists pt n).foldl (fun b d => updateBest b n d) best

/-- `PDFViewer.find_node_at_point` over document coordinates `(x, y)`:
returns the globally closest candidate node iff its distance is within
the converted tolerance. -/
def find_node_at_point (v : Viewer) (x y : ℚ) (tolerance : ℚ) : Option Node :=
  match (nodesForPage v.hazop_data.nodes v.current_page).foldl (scanNode (x, y)) none with
  | some (n, d) =>
      if 0 ≤ node_tolerance_pdf v tolerance ∧ d ≤ node_tolerance_pdf v tolerance ^ 2 then
        some n
      else none
  | none => none

/-- The vertex loop of `find_point_near`: nearest vertex index by
strict improvement (first minimum wins), `i` tracking `enumerate`. -/
def bestVertexGo (pt : ℚ × ℚ) : ℕ → Option (ℕ × ℚ) → List (ℚ × ℚ) → Option (ℕ × ℚ)
  | _, best, [] => best
  | i, none, p :: ps => bestVertexGo pt (i + 1) (some (i, sqDist p pt)) ps
  | i, some (j, dj), p :: ps =>
      if sqDist p pt < dj then bestVertexGo pt (i + 1) (some (i, sqDist p pt)) ps
      else bestVertexGo pt (i + 1) (some (j, dj)) ps

/-- `PDFViewer.find_point_near` over document coordinates: nearest
vertex of `n` within the converted tolerance. -/
def find_point_near (v : Viewer) (x y : ℚ) (n : Node) (tolerance : ℚ) : Option ℕ :=
  match bestVertexGo (x, y) 0 none n.points with
  | some (_, dj) =>
      if 0 ≤ render_tolerance_pdf v tolerance ∧ dj ≤ render_tolerance_pdf v tolerance ^ 2 then
        (bestVertexGo (x, y) 0 none n.points).map Prod.fst
      else none
  | none => none

/-- The segment loop of `find_segment_for_point`: tracks the closest
segment's distance together with the insertion index
(`i + 1 if dist_to_p2 < dist_to_p1 else i`). -/
def bestSegGo (pt : ℚ × ℚ) : ℕ → Option (ℚ × ℕ) → List ((ℚ × ℚ) × (ℚ × ℚ)) → Option (ℚ × ℕ)
  | _, best, [] => best
  | i, none, s :: ss =>
      bestSegGo pt (i + 1)
        (some (point_to_line_sqdist pt s.1 s.2,
               if sqDist s.2 pt < sqDist s.1 pt then i + 1 else i)) ss
  | i, some (db, idx), s :: ss =>
      if point_to_line_sqdist pt s.1 s.2 < db then
        bestSegGo pt (i + 1)
          (some (point_to_line_sqdist pt s.1 s.2,
                 if sqDist s.2 pt < sqDist s.1 pt then i + 1 else i)) ss
      else bestSegGo pt (i + 1) (some (db, idx)) ss

/-- `PDFViewer.find_segment_for_point`: the index before which a new
point is spliced, if some segment is within the converted tolerance. -/
def find_segment_for_point (v : Viewer) (x y : ℚ) (n : Node) (tolerance : ℚ) : Option ℕ :=
  if n.points.length < 2 then none
  else
    match bestSegGo (x, y) 0 none (consecutivePairs n.points) with
    | some (db, idx) =>
        if 0 ≤ render_tolerance_pdf v tolerance ∧ db ≤ render_tolerance_pdf v tolerance ^ 2 then
          some idx
        else none
    | none => none

/-- Squared length of a segment. -/
def sqSeg (s : (ℚ × ℚ) × (ℚ × ℚ)) : ℚ := sqDist s.1 s.2

/-- The longest-segment loop of `PDFViewer.draw_name`
(`if length > max_length`, so the first maximum is kept), embedded
with squared lengths. -/
def longestSegmentGo : ℚ → ((ℚ × ℚ) × (ℚ × ℚ)) → List ((ℚ × ℚ) × (ℚ × ℚ)) → (ℚ × ℚ) × (ℚ × ℚ)
  | _, best, [] => best
  | maxLen, best, s :: rest =>
      if maxLen < sqSeg s then longestSegmentGo (sqSeg s) s rest
      else longestSegmentGo maxLen best rest

/-- The longest-segment search of `PDFViewer.draw_name`: initial
candidate `(points[0], points[1])` with `max_length = 0`, then the loop
over all segments.  `draw_name` returns before the search when the
polyline has fewer than 2 points. -/
def longestSegment (ps : List (ℚ × ℚ)) : (ℚ × ℚ) × (ℚ × ℚ) :=
  match ps with
  | p0 :: p1 :: _ => longestSegmentGo 0 (p0, p1) (consecutivePairs ps)
  | _ => ((0, 0), (0, 0))

/-- `PDFViewer.end_editing`. -/
def end_editing (v : Viewer) : Viewer :=
  { v with editing_node := none, dragging_point := none }

/-- The node built by the creation branch of `on_click` on its first
point: `Node(name=f"Line {len(nodes)+1}", page_number=..., points=[p])`
with the dataclass defaults for the remaining fields. -/
def mkCreationNode (v : Viewer) (p : ℚ × ℚ) : Node :=
  { name := "Line " ++ toString (v.hazop_data.nodes.length + 1)
    color := "#FF0000", thickness := 2, transparency := 7 / 10,
    has_arrow := true, font_size := 12, points := [p], deviations := [],
    page_number := v.current_page }

/-- Rewrite the store's last entry: during creation `current_node`
aliases the node appended by `add_node`, so an in-place mutation of it
is a mutation of the store's last element. -/
def setLastNode (ns : List Node) (n : Node) : List Node := ns.dropLast ++ [n]

/-- `PDFViewer.on_click` at screen position `(x, y)`: the creation
branch appends the converted point; the editing branch grabs a vertex
or exits editing; otherwise hit-test and select/deselect. -/
def on_click (v : Viewer) (x y : ℚ) : Viewer :=
  if v.creating_line then
    let p := screen_to_pdf_coords v x y
    let v1 := { v with current_line_points := v.current_line_points ++ [p] }
    match v.current_node with
    | none =>
        let n := mkCreationNode v p
        { v1 with current_node := some n, hazop_data := add_node v1.hazop_data n }
    | some n =>
        let n2 := { n with points := n.points ++ [p] }
        { v1 with current_node := some n2,
                  hazop_data := { v1.hazop_data with
                                  nodes := setLastNode v1.hazop_data.nodes n2 } }
  else
    match v.editing_node with
    | some n =>
        let p := screen_to_pdf_coords v x y
        match find_point_near v p.1 p.2 n 15 with
        | some i =>
            { v with dragging_point := some i, drag_start_x := x, drag_start_y := y,
                     drag_original_point := n.points[i]? }
        | none => end_editing v
    | none =>
        let p := screen_to_pdf_coords v x y
        match find_node_at_point v p.1 p.2 25 with
        | some m => { v with selected_node := some m }
        | none => { v with selected_node := none }

/-- `PDFViewer.end_line_creation`: a node with fewer than 2 points is
removed from the store; the creation state is cleared. -/
def end_line_creation (v : Viewer) : Viewer :=
  let d := match v.current_node with
    | some n => if n.points.length < 2 then remove_node v.hazop_data n else v.hazop_data
    | none => v.hazop_data
  { v with hazop_data := d, creating_line := false,
           current_line_points := [], current_node := none }

/-- `PDFViewer.remove_point`: pops the vertex only when the edited node
keeps more than 2 points (`len(points) > 2`); otherwise a no-op.  The
session reference `editing_node` carries the edited point list. -/
def remove_point (v : Viewer) (point_index : ℕ) : Viewer :=
  match v.editing_node with
  | some n =>
      if 2 < n.points.length then
        { v with editing_node := some ({ n with points := n.points.eraseIdx point_index }) }
      else v
  | none => v

/-- Python `list.insert(i, p)` (an index past the end appends). -/
def listInsert : ℕ → (ℚ × ℚ) → List (ℚ × ℚ) → List (ℚ × ℚ)
  | _, p, [] => [p]
  | 0, p, l => p :: l
  | i + 1, p, q :: l => q :: listInsert i p l

/-- `PDFViewer.add_point_to_line`: splices `(pdf_x, pdf_y)` at the
insertion index found by `find_segment_for_point`, if any. -/
def add_point_to_line (v : Viewer) (pdf_x pdf_y : ℚ) : Viewer :=
  match v.editing_node with
  | some n =>
      match find_segment_for_point v pdf_x pdf_y n 25 with
      | some insert_index =>
          { v with
            editing_node := some ({ n with points := listInsert insert_index (pdf_x, pdf_y) n.points }) }
      | none => v
  | none => v

/-- `PDFViewer.on_right_click`: ends creation, or in editing mode
either opens the point menu (a vertex was hit; no immediate state
change) or splices a point; otherwise opens the node menu. -/
def on_right_click (v : Viewer) (x y : ℚ) : Viewer :=
  if v.creating_line then end_line_creation v
  else
    match v.editing_node with
    | some n =>
        let p := screen_to_pdf_coords v x y
        match find_point_near v p.1 p.2 n 15 with
        | some _ => v
        | none => add_point_to_line v p.1 p.2
    | none => v

/-- `PDFViewer.on_drag` while a vertex is grabbed: moves the dragged
vertex by the screen delta divided by the current effective scale and
re-bases the drag origin. -/
def on_drag (v : Viewer) (ex ey : ℚ) : Viewer :=
  match v.dragging_point, v.editing_node, v.drag_original_point with
  | some i, some n, some orig =>
      let es := v.scale * v.base_zoom * v.zoom_level
      let newp := (orig.1 + (ex - v.drag_start_x) / es, orig.2 + (ey - v.drag_start_y) / es)
      { v with editing_node := some ({ n with points := n.points.set i newp }),
               drag_start_x := ex, drag_start_y := ey,
               drag_original_point := some newp }
  | _, _, _ => v

/-- `PDFViewer.start_editing`. -/
def start_editing (v : Viewer) (n : Node) : Viewer :=
  { v with editing_node := some n, selected_node := some n, dragging_point := none }

/-- `PDFViewer.delete_node`, confirmed branch of its dialog: removes
the node from the store and clears `selected_node` — and nothing else. -/
def delete_node (v : Viewer) (n : Node) : Viewer :=
  { v with hazop_data := remove_node v.hazop_data n, selected_node := none }

/-- `PDFViewer.start_line_creation`. -/
def start_line_creation (v : Viewer) : Viewer :=
  { v with creating_line := true, current_line_points := [], current_node := none }

/-- A node with the creation defaults and the given point list, used to
instantiate concrete states. -/
def sampleNode (ps : List (ℚ × ℚ)) : Node :=
  { name := "N", color := "#FF0000", thickness := 2, transparency := 7 / 10,
    has_arrow := true, font_size := 12, points := ps, deviations := [],
    page_number := 0 }

/-- A loaded viewer whose effective scale is `1/2` (fit rendering of a
wide page can produce any positive `base_zoom`/`scale` product). -/
def halfScaleViewer : Viewer := { initialViewer with base_zoom := 1 / 2 }

/-- A loaded viewer whose effective scale is the integer `2`. -/
def twoScaleViewer : Viewer := { initialViewer with base_zoom := 2 }

/-- A viewer whose page holds a single one-point (incomplete) node. -/
def onePointViewer : Viewer :=
  { initialViewer with hazop_data := mkStore [sampleNode [(5, 5)]] }

/-- A viewer whose page holds a single two-point node. -/
def twoPointViewer : Viewer :=
  { initialViewer with hazop_data := mkStore [sampleNode [(5, 5), (9, 5)]] }

/-- A creating-state viewer: one pre-existing node, then the node the
current creation gesture added with its single recorded point. -/
def creatingNode : Node := sampleNode [(6, 6)]

/-- The creating-state viewer holding `creatingNode` as its in-progress
node (store entry appended by `add_node`). -/
def creatingViewer : Viewer :=
  { initialViewer with
    creating_line := true
    current_node := some creatingNode
    hazop_data := mkStore [sampleNode [(5, 5)], creatingNode] }

/-- A viewer editing a two-point node. -/
def editingViewer : Viewer :=
  { initialViewer with editing_node := some (sampleNode [(5, 5), (9, 5)]) }

/-- A viewer with `scale = 2`, `base_zoom = 3`, `zoom_level = 1`:
its effective scale is `6` while `scale` alone is `2` and the render
scale is `3`. -/
def mixedScaleViewer : Viewer :=
  { initialViewer with scale := 2, base_zoom := 3, zoom_level := 1 }

/-- The two-point node of the deletion scenario. -/
def deletionNode : Node := sampleNode [(5, 5), (9, 5)]

/-- Delete `deletionNode` from the store while it is being edited
(reachable through the host menu's Delete Node while in point-editing
mode). -/
def deletionViewer : Viewer :=
  delete_node (start_editing { initialViewer with hazop_data := mkStore [deletionNode] }
    deletionNode) deletionNode

/-- A drag in progress on the two-point node at effective scale `2`:
vertex 0 grabbed at screen origin. -/
def draggingViewer : Viewer :=
  { initialViewer with
    base_zoom := 2
    editing_node := some (sampleNode [(0, 0), (9, 5)])
    dragging_point := some 0
    drag_start_x := 0
    drag_start_y := 0
    drag_original_point := some (0, 0) }

/-! ## Auxiliary lemmas -/

theorem ratTrunc_intCast (n : ℤ) : ratTrunc (n : ℚ) = n := by
  rcases le_or_lt 0 (n : ℚ) with h | h
  · simp [ratTrunc, h]
  · simp [ratTrunc, not_le.mpr h]

theorem clampZoom_pos (z : ℚ) : 0 < clampZoom z :=
  lt_of_lt_of_le (by norm_num) (le_max_left _ _)

theorem clampZoom_lb (z : ℚ) : 1 / 10 ≤ clampZoom z := le_max_left _ _

theorem clampZoom_ub (z : ℚ) : clampZoom z ≤ 5 :=
  max_le (by norm_num) (min_le_left _ _)

/-- The pan fix-up of every anchor-preserving zoom path sends the
anchor back to the same truncated document coordinate. -/
theorem ratTrunc_anchor (es : ℚ) (hes : es ≠ 0) (k : ℤ) (m p : ℚ) :
    ratTrunc ((m - (p + (m - ((k : ℚ) * es + p)))) / es) = k := by
  have h : (m - (p + (m - ((k : ℚ) * es + p)))) / es = (k : ℚ) := by
    field_simp
    ring
  rw [h, ratTrunc_intCast]

/-- Anchor preservation for the `zoom_in` update: the truncated
document coordinates under the mouse are unchanged. -/
theorem zoom_in_anchor (v : Viewer) (factor mx my : ℚ)
    (hs : 0 < v.scale) (hb : 0 < v.base_zoom) (hz : 0 < v.zoom_level) :
    screen_to_pdf_coords (zoom_in v factor mx my) mx my = screen_to_pdf_coords v mx my := by
  by_cases h : clampZoom (v.zoom_level * factor) = v.zoom_level
  · simp [zoom_in, h]
  · have hz' : (0 : ℚ) < clampZoom (v.zoom_level * factor) := clampZoom_pos _
    have hes' : v.scale * v.base_zoom * clampZoom (v.zoom_level * factor) ≠ 0 :=
      ne_of_gt (by positivity)
    have hnes : v.scale * v.base_zoom * v.zoom_level *
        (clampZoom (v.zoom_level * factor) / v.zoom_level) =
        v.scale * v.base_zoom * clampZoom (v.zoom_level * factor) := by
      field_simp
      ring
    simp only [zoom_in, ne_eq, h, not_false_iff, if_true, if_pos hz,
      screen_to_pdf_coords, effective_scale]
    rw [hnes, ratTrunc_anchor _ hes', ratTrunc_anchor _ hes']

/-- Anchor preservation for the `zoom_out` update. -/
theorem zoom_out_anchor (v : Viewer) (factor mx my : ℚ)
    (hs : 0 < v.scale) (hb : 0 < v.base_zoom) :
    screen_to_pdf_coords (zoom_out v factor mx my) mx my = screen_to_pdf_coords v mx my := by
  by_cases h : clampZoom (v.zoom_level / factor) = v.zoom_level
  · simp [zoom_out, h]
  · have hz' : (0 : ℚ) < clampZoom (v.zoom_level / factor) := clampZoom_pos _
    have hes' : v.scale * v.base_zoom * clampZoom (v.zoom_level / factor) ≠ 0 :=
      ne_of_gt (by positivity)
    simp only [zoom_out, ne_eq, h, not_false_iff, if_true,
      screen_to_pdf_coords, effective_scale]
    rw [ratTrunc_anchor _ hes', ratTrunc_anchor _ hes']

/-- Claim C2: an anchor-based zoom (`zoom_in`, `zoom_out`, Ctrl+wheel)
leaves the truncated document point under the anchor unchanged:
`screen_to_pdf_coords(anchor)` is the same before and after the zoom
level and pan update, for every factor, in every state with positive
scale, base zoom, and zoom level. -/
theorem C2_anchor_preserving_zoom (v : Viewer) (factor mx my : ℚ) (delta : ℤ)
    (hs : 0 < v.scale) (hb : 0 < v.base_zoom) (hz : 0 < v.zoom_level) :
    screen_to_pdf_coords (zoom_in v factor mx my) mx my = screen_to_pdf_coords v mx my ∧
    screen_to_pdf_coords (zoom_out v factor mx my) mx my = screen_to_pdf_coords v mx my ∧
    screen_to_pdf_coords (on_mouse_wheel v delta mx my) mx my = screen_to_pdf_coords v mx my := by
  refine ⟨zoom_in_anchor v factor mx my hs hb hz, zoom_out_anchor v factor mx my hs hb, ?_⟩
  unfold on_mouse_wheel
  exact zoom_in_anchor v _ mx my hs hb hz

/-- Concrete instance of claim C2 at the initial state, factor `6/5`,
anchor `(100, 50)`, wheel delta `120`. -/
theorem C2_witness :
    (0 : ℚ) < initialViewer.scale ∧ (0 : ℚ) < initialViewer.base_zoom ∧
    (0 : ℚ) < initialViewer.zoom_level ∧
    (screen_to_pdf_coords (zoom_in initialViewer (6 / 5) 100 50) 100 50 =
        screen_to_pdf_coords initialViewer 100 50 ∧
     screen_to_pdf_coords (zoom_out initialViewer (6 / 5) 100 50) 100 50 =
        screen_to_pdf_coords initialViewer 100 50 ∧
     screen_to_pdf_coords (on_mouse_wheel initialViewer 120 100 50) 100 50 =
        screen_to_pdf_coords initialViewer 100 50) :=
  ⟨by norm_num [initialViewer], by norm_num [initialViewer], by norm_num [initialViewer],
   C2_anchor_preserving_zoom initialViewer (6 / 5) 100 50 120
     (by norm_num [initialViewer]) (by norm_num [initialViewer]) (by norm_num [initialViewer])⟩

/-- Claim C1 fails on the code: at effective scale `1/2` (zero pan) the
document point `(3, 3)` round-trips through `pdf_to_screen_coords` and
`screen_to_pdf_coords` to `(2, 2)`, off by a full document unit because
both conversions truncate to integers. -/
theorem C1_counterexample :
    screen_to_pdf_coords halfScaleViewer
        (pdf_to_screen_coords halfScaleViewer 3 3).1
        (pdf_to_screen_coords halfScaleViewer 3 3).2 = ((2 : ℚ), (2 : ℚ)) ∧
    ((2 : ℚ), (2 : ℚ)) ≠ ((3 : ℚ), (3 : ℚ)) := by
  constructor
  · norm_num [halfScaleViewer, initialViewer, screen_to_pdf_coords, pdf_to_screen_coords,
      effective_scale, ratTrunc, Prod.ext_iff]
  · norm_num [Prod.ext_iff]

/-- Claim C1 amended: because both conversions truncate to integers,
the round trip is the identity (not merely close) whenever the
effective scale is an integer `≥ 1`, both pan offsets are integers, and
the document point has integer coordinates; with a fractional effective
scale the round trip can be off by whole document units. -/
theorem C1_round_trip_integer_scale (v : Viewer) (m a b px py : ℤ)
    (hm : effective_scale v = (m : ℚ)) (h1 : 1 ≤ m)
    (ha : v.pan_x = (a : ℚ)) (hb : v.pan_y = (b : ℚ)) :
    screen_to_pdf_coords v (pdf_to_screen_coords v (px : ℚ) (py : ℚ)).1
      (pdf_to_screen_coords v (px : ℚ) (py : ℚ)).2 = ((px : ℚ), (py : ℚ)) := by
  have hm0 : ((m : ℚ)) ≠ 0 := by
    have h2 : (1 : ℚ) ≤ (m : ℚ) := by exact_mod_cast h1
    linarith
  have hx : ratTrunc ((px : ℚ) * (m : ℚ) + (a : ℚ)) = px * m + a := by
    rw [show (px : ℚ) * (m : ℚ) + (a : ℚ) = ((px * m + a : ℤ) : ℚ) by push_cast ; ring]
    exact ratTrunc_intCast _
  have hy : ratTrunc ((py : ℚ) * (m : ℚ) + (b : ℚ)) = py * m + b := by
    rw [show (py : ℚ) * (m : ℚ) + (b : ℚ) = ((py * m + b : ℤ) : ℚ) by push_cast ; ring]
    exact ratTrunc_intCast _
  have hx2 : (((px * m + a : ℤ) : ℚ) - (a : ℚ)) / (m : ℚ) = ((px : ℤ) : ℚ) := by
    push_cast
    field_simp
  have hy2 : (((py * m + b : ℤ) : ℚ) - (b : ℚ)) / (m : ℚ) = ((py : ℤ) : ℚ) := by
    push_cast
    field_simp
  simp only [pdf_to_screen_coords, screen_to_pdf_coords, hm, ha, hb, hx, hy, hx2, hy2,
    ratTrunc_intCast]

/-- Concrete instance of the amended claim C1: effective scale `2`,
zero pan, document point `(3, 4)`. -/
theorem C1_witness :
    effective_scale twoScaleViewer = ((2 : ℤ) : ℚ) ∧ (1 : ℤ) ≤ 2 ∧
    twoScaleViewer.pan_x = ((0 : ℤ) : ℚ) ∧ twoScaleViewer.pan_y = ((0 : ℤ) : ℚ) ∧
    screen_to_pdf_coords twoScaleViewer
      (pdf_to_screen_coords twoScaleViewer ((3 : ℤ) : ℚ) ((4 : ℤ) : ℚ)).1
      (pdf_to_screen_coords twoScaleViewer ((3 : ℤ) : ℚ) ((4 : ℤ) : ℚ)).2 =
      (((3 : ℤ) : ℚ), ((4 : ℤ) : ℚ)) :=
  ⟨by norm_num [effective_scale, twoScaleViewer, initialViewer], by norm_num,
   by norm_num [twoScaleViewer, initialViewer], by norm_num [twoScaleViewer, initialViewer],
   C1_round_trip_integer_scale twoScaleViewer 2 0 0 3 4
     (by norm_num [effective_scale, twoScaleViewer, initialViewer]) (by norm_num)
     (by norm_num [twoScaleViewer, initialViewer]) (by norm_num [twoScaleViewer, initialViewer])⟩

/-- The `zoom_in` update either keeps the zoom level or clamps the
requested product. -/
theorem zoom_in_zoom_level (v : Viewer) (f mx my : ℚ) :
    (zoom_in v f mx my).zoom_level = v.zoom_level ∨
    (zoom_in v f mx my).zoom_level = clampZoom (v.zoom_level * f) := by
  by_cases h : clampZoom (v.zoom_level * f) = v.zoom_level
  · left
    simp [zoom_in, h]
  · right
    simp [zoom_in, h]

/-- The `zoom_out` update either keeps the zoom level or clamps the
requested quotient. -/
theorem zoom_out_zoom_level (v : Viewer) (f mx my : ℚ) :
    (zoom_out v f mx my).zoom_level = v.zoom_level ∨
    (zoom_out v f mx my).zoom_level = clampZoom (v.zoom_level / f) := by
  by_cases h : clampZoom (v.zoom_level / f) = v.zoom_level
  · left
    simp [zoom_out, h]
  · right
    simp [zoom_out, h]

/-- Each zoom gesture leaves the zoom level unchanged, clamped, or
reset to `1`. -/
theorem applyZoomOp_zoom_level_cases (v : Viewer) (op : ZoomOp) :
    (applyZoomOp v op).zoom_level = v.zoom_level ∨
    (∃ z, (applyZoomOp v op).zoom_level = clampZoom z) ∨
    (applyZoomOp v op).zoom_level = 1 := by
  cases op with
  | zoomIn f mx my =>
      rcases zoom_in_zoom_level v f mx my with h | h
      · exact Or.inl h
      · exact Or.inr (Or.inl ⟨_, h⟩)
  | zoomOut f mx my =>
      rcases zoom_out_zoom_level v f mx my with h | h
      · exact Or.inl h
      · exact Or.inr (Or.inl ⟨_, h⟩)
  | wheel d mx my =>
      rcases zoom_in_zoom_level v (if 0 < d then 11 / 10 else 10 / 11) mx my with h | h
      · exact Or.inl h
      · exact Or.inr (Or.inl ⟨_, h⟩)
  | reset =>
      right; right
      simp [applyZoomOp, reset_zoom]

/-- One zoom gesture preserves the zoom-level bounds. -/
theorem applyZoomOp_bounds (v : Viewer) (op : ZoomOp)
    (hlb : 1 / 10 ≤ v.zoom_level) (hub : v.zoom_level ≤ 5) :
    1 / 10 ≤ (applyZoomOp v op).zoom_level ∧ (applyZoomOp v op).zoom_level ≤ 5 := by
  rcases applyZoomOp_zoom_level_cases v op with h | ⟨z, h⟩ | h <;> rw [h]
  · exact ⟨hlb, hub⟩
  · exact ⟨clampZoom_lb z, clampZoom_ub z⟩
  · exact ⟨by norm_num, by norm_num⟩

/-- The zoom-level bounds are preserved by any gesture sequence. -/
theorem foldl_zoom_bounds (ops : List ZoomOp) (v : Viewer)
    (hlb : 1 / 10 ≤ v.zoom_level) (hub : v.zoom_level ≤ 5) :
    1 / 10 ≤ (ops.foldl applyZoomOp v).zoom_level ∧ (ops.foldl applyZoomOp v).zoom_level ≤ 5 := by
  induction ops generalizing v with
  | nil => exact ⟨hlb, hub⟩
  | cons op ops ih =>
      have h := applyZoomOp_bounds v op hlb hub
      exact ih _ h.1 h.2

/-- Claim C6: starting from the initial state, the zoom level stays in
`[0.1, 5.0]` after any sequence of zoom gestures (`zoom_in`,
`zoom_out`, Ctrl+wheel, `reset_zoom`) with arbitrary requested
factors. -/
theorem C6_zoom_level_always_clamped (ops : List ZoomOp) :
    1 / 10 ≤ (ops.foldl applyZoomOp initialViewer).zoom_level ∧
    (ops.foldl applyZoomOp initialViewer).zoom_level ≤ 5 :=
  foldl_zoom_bounds ops initialViewer (by norm_num [initialViewer]) (by norm_num [initialViewer])

/-- Removing the first occurrence of a node appended to a list it does
not occur in recovers the original list. -/
theorem removeFirst_append_not_mem (ns : List Node) (n : Node) (h : n ∉ ns) :
    removeFirst (ns ++ [n]) n = ns := by
  induction ns with
  | nil => simp [removeFirst]
  | cons m ms ih =>
      have hm : ¬ m = n := by
        intro e
        exact h (e ▸ List.mem_cons_self m ms)
      simp only [List.cons_append, removeFirst, if_neg hm, List.append_eq]
      rw [ih (fun hmem => h (List.mem_cons_of_mem _ hmem))]

/-- Claim C4: ending line creation while the in-progress annotation has
exactly 1 recorded point removes it from the store, restoring the store
that preceded the creation gesture; ending with 2 or more points keeps
the annotation in the store. -/
theorem C4_end_line_creation_store (v : Viewer) (n : Node) (ns : List Node)
    (hcur : v.current_node = some n) (hstore : v.hazop_data.nodes = ns ++ [n])
    (hfresh : n ∉ ns) :
    (n.points.length = 1 → (end_line_creation v).hazop_data.nodes = ns) ∧
    (2 ≤ n.points.length → (end_line_creation v).hazop_data.nodes = ns ++ [n]) := by
  constructor
  · intro hlen
    have hmem : n ∈ v.hazop_data.nodes := by
      rw [hstore]
      exact List.mem_append_right _ (List.mem_singleton_self n)
    simp only [end_line_creation, hcur]
    rw [if_pos (by omega)]
    simp only [remove_node, hstore]
    rw [if_pos (List.mem_append_right _ (List.mem_singleton_self n))]
    exact removeFirst_append_not_mem ns n hfresh
  · intro hlen
    simp only [end_line_creation, hcur]
    rw [if_neg (by omega)]
    exact hstore

/-- Concrete instance of claim C4: a creation gesture recorded one
point over a store holding one prior node; finishing removes exactly
the in-progress node. -/
theorem C4_witness :
    creatingViewer.current_node = some creatingNode ∧
    creatingViewer.hazop_data.nodes = [sampleNode [(5, 5)]] ++ [creatingNode] ∧
    creatingNode ∉ [sampleNode [(5, 5)]] ∧
    ((creatingNode.points.length = 1 →
        (end_line_creation creatingViewer).hazop_data.nodes = [sampleNode [(5, 5)]]) ∧
     (2 ≤ creatingNode.points.length →
        (end_line_creation creatingViewer).hazop_data.nodes =
          [sampleNode [(5, 5)]] ++ [creatingNode])) :=
  ⟨rfl, rfl, by norm_num [creatingNode, sampleNode],
   C4_end_line_creation_store creatingViewer creatingNode [sampleNode [(5, 5)]] rfl rfl
     (by norm_num [creatingNode, sampleNode])⟩

/-- Claim C5: a right-click vertex removal on an annotation that has
exactly 2 points is refused — the whole viewer state, in particular the
edited annotation's point list and its length, is unchanged, for every
vertex index. -/
theorem C5_remove_point_refused (v : Viewer) (n : Node) (i : ℕ)
    (hed : v.editing_node = some n) (hlen : n.points.length = 2) :
    remove_point v i = v ∧ (remove_point v i).editing_node = some n ∧
    n.points.length = 2 := by
  have h2 : ¬ 2 < n.points.length := by omega
  have heq : remove_point v i = v := by
    simp [remove_point, hed, h2]
  refine ⟨heq, ?_, hlen⟩
  rw [heq]
  exact hed

/-- Concrete instance of claim C5 at vertex index 0 of a 2-point node. -/
theorem C5_witness :
    editingViewer.editing_node = some (sampleNode [(5, 5), (9, 5)]) ∧
    (sampleNode [(5, 5), (9, 5)]).points.length = 2 ∧
    (remove_point editingViewer 0 = editingViewer ∧
     (remove_point editingViewer 0).editing_node = some (sampleNode [(5, 5), (9, 5)]) ∧
     (sampleNode [(5, 5), (9, 5)]).points.length = 2) :=
  ⟨rfl, rfl,
   C5_remove_point_refused editingViewer (sampleNode [(5, 5), (9, 5)]) 0 rfl rfl⟩

/-- Claim C8 is violated by the code: deleting the annotation that is
currently being edited (reachable through the host Edit menu) removes
it from the store and clears `selected_node`, but `delete_node` never
clears `editing_node`, which keeps referring to the removed
annotation. -/
theorem C8_dangling_editing_reference :
    deletionViewer.editing_node = some deletionNode ∧
    deletionViewer.selected_node = none ∧
    deletionViewer.hazop_data.nodes = [] := by
  refine ⟨rfl, rfl, ?_⟩
  simp [deletionViewer, delete_node, start_editing, remove_node, removeFirst,
    initialViewer, mkStore]

/-- Claim C3 fails on the code: the store holds a single annotation
with exactly one point, yet `find_node_at_point` queried exactly at
that point returns nothing, because the node loop skips annotations
with fewer than 2 points (`continue`) before any endpoint check. -/
theorem C3_counterexample : find_node_at_point onePointViewer 5 5 25 = none := by
  norm_num [find_node_at_point, nodesForPage, onePointViewer, initialViewer, mkStore,
    sampleNode, scanNode]

/-- `updateBest` only ever stores nodes with at least 2 points. -/
theorem updateBest_min_len (b : Option (Node × ℚ)) (n : Node) (d : ℚ)
    (hb : ∀ m dm, b = some (m, dm) → 2 ≤ m.points.length)
    (hn : 2 ≤ n.points.length) (m : Node) (dm : ℚ)
    (h : updateBest b n d = some (m, dm)) : 2 ≤ m.points.length := by
  cases b with
  | none =>
      simp only [updateBest, Option.some.injEq, Prod.mk.injEq] at h
      exact h.1 ▸ hn
  | some p =>
      obtain ⟨m', dm'⟩ := p
      by_cases hd : d < dm'
      · simp only [updateBest, if_pos hd, Option.some.injEq, Prod.mk.injEq] at h
        exact h.1 ▸ hn
      · simp only [updateBest, if_neg hd, Option.some.injEq, Prod.mk.injEq] at h
        exact h.1 ▸ hb m' dm' rfl

/-- Folding `updateBest` over candidate distances preserves the
2-point lower bound of the stored node. -/
theorem foldl_updateBest_min_len (ds : List ℚ) (n : Node) (b : Option (Node × ℚ))
    (hb : ∀ m dm, b = some (m, dm) → 2 ≤ m.points.length)
    (hn : 2 ≤ n.points.length) :
    ∀ m dm, ds.foldl (fun b d => updateBest b n d) b = some (m, dm) →
      2 ≤ m.points.length := by
  induction ds generalizing b with
  | nil => exact hb
  | cons d ds ih =>
      intro m dm h
      rw [List.foldl_cons] at h
      exact ih _ (fun m' dm' h' => updateBest_min_len b n d hb hn m' dm' h') m dm h

/-- `scanNode` preserves the 2-point lower bound of the stored node. -/
theorem scanNode_min_len (pt : ℚ × ℚ) (b : Option (Node × ℚ)) (n : Node)
    (hb : ∀ m dm, b = some (m, dm) → 2 ≤ m.points.length) :
    ∀ m dm, scanNode pt b n = some (m, dm) → 2 ≤ m.points.length := by
  by_cases hlen : n.points.length < 2
  · simp only [scanNode, if_pos hlen]
    exact hb
  · simp only [scanNode, if_neg hlen]
    exact foldl_updateBest_min_len _ n b hb (by omega)

/-- The node loop of `find_node_at_point` only tracks nodes with at
least 2 points. -/
theorem foldl_scanNode_min_len (nodes : List Node) (pt : ℚ × ℚ) (b : Option (Node × ℚ))
    (hb : ∀ m dm, b = some (m, dm) → 2 ≤ m.points.length) :
    ∀ m dm, nodes.foldl (scanNode pt) b = some (m, dm) → 2 ≤ m.points.length := by
  induction nodes generalizing b with
  | nil => exact hb
  | cons nd nodes ih =>
      intro m dm h
      rw [List.foldl_cons] at h
      exact ih _ (scanNode_min_len pt b nd hb) m dm h

/-- Claim C3 amended: `find_node_at_point` never returns an annotation
with fewer than 2 points — single-point (incomplete) annotations are
skipped by the node loop, so they are not hit even at their exact
point; any returned annotation has at least 2 points. -/
theorem C3_find_node_needs_two_points (v : Viewer) (x y tolerance : ℚ) (n : Node)
    (h : find_node_at_point v x y tolerance = some n) : 2 ≤ n.points.length := by
  unfold find_node_at_point at h
  rcases hfold : (nodesForPage v.hazop_data.nodes v.current_page).foldl (scanNode (x, y)) none
    with - | md
  · rw [hfold] at h
    exact absurd h (by simp)
  · obtain ⟨m, d⟩ := md
    rw [hfold] at h
    by_cases hc : 0 ≤ node_tolerance_pdf v tolerance ∧
        d ≤ node_tolerance_pdf v tolerance ^ 2
    · simp only [if_pos hc, Option.some.injEq] at h
      exact h ▸ foldl_scanNode_min_len _ (x, y) none (by intro m' dm' h'; cases h') m d hfold
    · simp only [if_neg hc] at h
      exact absurd h (by simp)

/-- Concrete instance of amended claim C3: a two-point node hit at its
first endpoint is returned, and it indeed has at least 2 points. -/
theorem C3_witness :
    find_node_at_point twoPointViewer 5 5 25 = some (sampleNode [(5, 5), (9, 5)]) ∧
    2 ≤ (sampleNode [(5, 5), (9, 5)]).points.length :=
  ⟨by norm_num [find_node_at_point, nodesForPage, twoPointViewer, initialViewer, mkStore,
      sampleNode, scanNode, nodeCandidateSqDists, consecutivePairs, point_to_line_sqdist,
      sqDist, updateBest, node_tolerance_pdf],
   C3_find_node_needs_two_points twoPointViewer 5 5 25 _
     (by norm_num [find_node_at_point, nodesForPage, twoPointViewer, initialViewer, mkStore,
        sampleNode, scanNode, nodeCandidateSqDists, consecutivePairs, point_to_line_sqdist,
        sqDist, updateBest, node_tolerance_pdf])⟩

/-- Claim C7 fails on the code: at `scale = 2`, `base_zoom = 3`,
`zoom_level = 1` (effective scale `6`), the selection tolerance is
converted as `25 / 2` and the point-grab tolerance as `15 / 3` — in
neither case `tolerance / 6`. -/
theorem C7_counterexample :
    node_tolerance_pdf mixedScaleViewer 25 ≠ 25 / effective_scale mixedScaleViewer ∧
    render_tolerance_pdf mixedScaleViewer 15 ≠ 15 / effective_scale mixedScaleViewer := by
  constructor
  · norm_num [node_tolerance_pdf, effective_scale, mixedScaleViewer, initialViewer]
  · norm_num [render_tolerance_pdf, render_scale, effective_scale, mixedScaleViewer,
      initialViewer]

/-- Claim C7 amended: the selection tolerance of `find_node_at_point`
is divided by `scale` alone and the grab tolerance of
`find_point_near` / `find_segment_for_point` by
`base_zoom * zoom_level` alone; each differs from
`tolerancePx / effectiveScale` whenever the respective other factor is
not `1`. -/
theorem C7_tolerance_conversion (v : Viewer) (t : ℚ)
    (hs : 0 < v.scale) (hr : 0 < render_scale v) :
    node_tolerance_pdf v t = t / v.scale ∧
    render_tolerance_pdf v t = t / (v.base_zoom * v.zoom_level) ∧
    (render_scale v ≠ 1 → 0 < t → node_tolerance_pdf v t ≠ t / effective_scale v) ∧
    (v.scale ≠ 1 → 0 < t → render_tolerance_pdf v t ≠ t / effective_scale v) := by
  have hesr : effective_scale v = v.scale * render_scale v := by
    unfold effective_scale render_scale
    ring
  have hes : (0 : ℚ) < effective_scale v := by
    rw [hesr]
    exact mul_pos hs hr
  refine ⟨by rw [node_tolerance_pdf, if_pos hs],
    by rw [render_tolerance_pdf, if_pos hr, render_scale], ?_, ?_⟩
  · intro hne ht heq
    rw [node_tolerance_pdf, if_pos hs] at heq
    have hcross := (div_eq_div_iff (ne_of_gt hs) (ne_of_gt hes)).mp heq
    have hsc : effective_scale v = v.scale := mul_left_cancel₀ (ne_of_gt ht) hcross
    rw [hesr] at hsc
    refine hne (mul_left_cancel₀ (ne_of_gt hs) ?_)
    rw [mul_one]
    exact hsc
  · intro hne ht heq
    rw [render_tolerance_pdf, if_pos hr] at heq
    have hcross := (div_eq_div_iff (ne_of_gt hr) (ne_of_gt hes)).mp heq
    have hsc : effective_scale v = render_scale v := mul_left_cancel₀ (ne_of_gt ht) hcross
    rw [hesr] at hsc
    refine hne (mul_right_cancel₀ (ne_of_gt hr) ?_)
    rw [one_mul]
    exact hsc

/-- Concrete instance of amended claim C7 at `scale = 2`,
`base_zoom = 3`, `zoom_level = 1`, tolerance 25. -/
theorem C7_witness :
    (0 : ℚ) < mixedScaleViewer.scale ∧ (0 : ℚ) < render_scale mixedScaleViewer ∧
    (node_tolerance_pdf mixedScaleViewer 25 = 25 / mixedScaleViewer.scale ∧
     render_tolerance_pdf mixedScaleViewer 25 =
       25 / (mixedScaleViewer.base_zoom * mixedScaleViewer.zoom_level) ∧
     (render_scale mixedScaleViewer ≠ 1 → (0 : ℚ) < 25 →
       node_tolerance_pdf mixedScaleViewer 25 ≠ 25 / effective_scale mixedScaleViewer) ∧
     (mixedScaleViewer.scale ≠ 1 → (0 : ℚ) < 25 →
       render_tolerance_pdf mixedScaleViewer 25 ≠ 25 / effective_scale mixedScaleViewer)) :=
  ⟨by norm_num [mixedScaleViewer, initialViewer],
   by norm_num [render_scale, mixedScaleViewer, initialViewer],
   C7_tolerance_conversion mixedScaleViewer 25
     (by norm_num [mixedScaleViewer, initialViewer])
     (by norm_num [render_scale, mixedScaleViewer, initialViewer])⟩

/-- The longest-segment loop returns the first occurrence of the
maximum: the result splits the candidate list `best :: rest` into a
strictly-smaller prefix and a no-larger suffix, provided the running
maximum equals the running best's squared length. -/
theorem longestSegmentGo_spec (rest : List ((ℚ × ℚ) × (ℚ × ℚ)))
    (best : (ℚ × ℚ) × (ℚ × ℚ)) (maxLen : ℚ) (h : maxLen = sqSeg best) :
    ∃ l₁ l₂, best :: rest = l₁ ++ longestSegmentGo maxLen best rest :: l₂ ∧
      (∀ s ∈ l₁, sqSeg s < sqSeg (longestSegmentGo maxLen best rest)) ∧
      (∀ s ∈ l₂, sqSeg s ≤ sqSeg (longestSegmentGo maxLen best rest)) := by
  induction rest generalizing best maxLen with
  | nil =>
      refine ⟨[], [], ?_, ?_, ?_⟩ <;> simp [longestSegmentGo]
  | cons s rest ih =>
      by_cases hs : maxLen < sqSeg s
      · have hr : longestSegmentGo maxLen best (s :: rest) =
            longestSegmentGo (sqSeg s) s rest := by
          simp [longestSegmentGo, hs]
        obtain ⟨l₁, l₂, heq, hlt, hle⟩ := ih s (sqSeg s) rfl
        have hs_le : sqSeg s ≤ sqSeg (longestSegmentGo (sqSeg s) s rest) := by
          rcases l₁ with - | ⟨u, t⟩
          · rw [List.nil_append, List.cons.injEq] at heq
            rw [← heq.1]
          · rw [List.cons_append, List.cons.injEq] at heq
            exact le_of_lt (heq.1 ▸ hlt u (List.mem_cons_self u t))
        rw [hr]
        refine ⟨best :: l₁, l₂, ?_, ?_, hle⟩
        · rw [List.cons_append, ← heq]
        · intro u hu
          rcases List.mem_cons.mp hu with rfl | hu'
          · calc sqSeg u = maxLen := h.symm
              _ < sqSeg s := hs
              _ ≤ _ := hs_le
          · exact hlt u hu'
      · have hr : longestSegmentGo maxLen best (s :: rest) =
            longestSegmentGo maxLen best rest := by
          simp [longestSegmentGo, hs]
        have hsle : sqSeg s ≤ maxLen := not_lt.mp hs
        obtain ⟨l₁, l₂, heq, hlt, hle⟩ := ih best maxLen h
        rw [hr]
        rcases l₁ with - | ⟨u, t⟩
        · rw [List.nil_append, List.cons.injEq] at heq
          refine ⟨[], s :: rest, ?_, by simp, ?_⟩
          · rw [List.nil_append, ← heq.1]
          · intro w hw
            rcases List.mem_cons.mp hw with rfl | hw'
            · rw [← heq.1, ← h]
              exact hsle
            · exact hle w (heq.2 ▸ hw')
        · rw [List.cons_append, List.cons.injEq] at heq
          have hbu : best = u := heq.1
          have hbest_lt : sqSeg best < sqSeg (longestSegmentGo maxLen best rest) :=
            hbu ▸ hlt u (List.mem_cons_self u t)
          refine ⟨best :: s :: t, l₂, ?_, ?_, hle⟩
          · rw [List.cons_append, List.cons_append, List.cons.injEq]
            refine ⟨rfl, ?_⟩
            conv_lhs => rw [heq.2]
          · intro w hw
            rcases List.mem_cons.mp hw with rfl | hw'
            · exact hbest_lt
            · rcases List.mem_cons.mp hw' with rfl | hw''
              · calc sqSeg w ≤ maxLen := hsle
                  _ = sqSeg best := h
                  _ < _ := hbest_lt
              · exact hbu ▸ hlt w (List.mem_cons_of_mem u hw'')

/-- Claim C9: for every polyline with at least 2 points, the
longest-segment search of `draw_name` selects a segment of maximal
(squared) euclidean length, and on ties the first such segment in path
order — every earlier segment is strictly shorter, every later one no
longer.  In particular on `[(0,0),(10,0),(10,10)]` it selects
`((0,0),(10,0))`. -/
theorem C9_longest_segment :
    (∀ (p0 p1 : ℚ × ℚ) (rest : List (ℚ × ℚ)),
      ∃ l₁ l₂,
        consecutivePairs (p0 :: p1 :: rest) =
          l₁ ++ longestSegment (p0 :: p1 :: rest) :: l₂ ∧
        (∀ s ∈ l₁, sqSeg s < sqSeg (longestSegment (p0 :: p1 :: rest))) ∧
        (∀ s ∈ l₂, sqSeg s ≤ sqSeg (longestSegment (p0 :: p1 :: rest)))) ∧
    longestSegment [((0 : ℚ), (0 : ℚ)), (10, 0), (10, 10)] = ((0, 0), (10, 0)) := by
  constructor
  · intro p0 p1 rest
    have hcp : consecutivePairs (p0 :: p1 :: rest) =
        (p0, p1) :: (p1 :: rest).zip rest := by
      simp [consecutivePairs]
    have hnn : (0 : ℚ) ≤ sqSeg (p0, p1) := by
      unfold sqSeg sqDist
      positivity
    by_cases h0 : (0 : ℚ) < sqSeg (p0, p1)
    · have hstep : longestSegment (p0 :: p1 :: rest) =
          longestSegmentGo (sqSeg (p0, p1)) (p0, p1) ((p1 :: rest).zip rest) := by
        rw [longestSegment, hcp]
        simp [longestSegmentGo, h0]
      obtain ⟨l₁, l₂, heq, hlt, hle⟩ :=
        longestSegmentGo_spec ((p1 :: rest).zip rest) (p0, p1) (sqSeg (p0, p1)) rfl
      rw [hstep, hcp]
      exact ⟨l₁, l₂, heq, hlt, hle⟩
    · have h00 : (0 : ℚ) = sqSeg (p0, p1) := le_antisymm hnn (not_lt.mp h0)
      have hstep : longestSegment (p0 :: p1 :: rest) =
          longestSegmentGo 0 (p0, p1) ((p1 :: rest).zip rest) := by
        rw [longestSegment, hcp]
        simp [longestSegmentGo, h0]
      obtain ⟨l₁, l₂, heq, hlt, hle⟩ :=
        longestSegmentGo_spec ((p1 :: rest).zip rest) (p0, p1) 0 h00
      rw [hstep, hcp]
      exact ⟨l₁, l₂, heq, hlt, hle⟩
  · norm_num [longestSegment, consecutivePairs, longestSegmentGo, sqSeg, sqDist]

/-- Claim C10: `screen_to_pdf_coords` truncates both document
coordinates to integers; consequently the point recorded by a creation
click is always integral, a right-click splice in editing mode passes
the truncated conversion on to `add_point_to_line`, which inserts
exactly that point; only `on_drag` produces points that can be
non-integral (witnessed at effective scale 2). -/
theorem C10_integer_document_points :
    (∀ (v : Viewer) (x y : ℚ), ∃ a b : ℤ,
        screen_to_pdf_coords v x y = ((a : ℚ), (b : ℚ))) ∧
    (∀ (v : Viewer) (x y : ℚ) (n' : Node), v.creating_line = true →
        (on_click v x y).current_node = some n' →
        ∃ a b : ℤ, n'.points.getLast? = some ((a : ℚ), (b : ℚ))) ∧
    (∀ (v : Viewer) (x y : ℚ) (n : Node), v.creating_line = false →
        v.editing_node = some n →
        find_point_near v (screen_to_pdf_coords v x y).1
          (screen_to_pdf_coords v x y).2 n 15 = none →
        on_right_click v x y =
          add_point_to_line v (screen_to_pdf_coords v x y).1
            (screen_to_pdf_coords v x y).2) ∧
    (∀ (v : Viewer) (px py : ℚ) (n n' : Node), v.editing_node = some n →
        (add_point_to_line v px py).editing_node = some n' →
        n'.points = n.points ∨ ∃ i, n'.points = listInsert i (px, py) n.points) ∧
    (∃ (n' : Node) (q : ℚ × ℚ), (on_drag draggingViewer 1 0).editing_node = some n' ∧
        q ∈ n'.points ∧ ∀ a b : ℤ, q ≠ ((a : ℚ), (b : ℚ))) := by
  refine ⟨?_, ?_, ?_, ?_, ?_⟩
  · intro v x y
    exact ⟨_, _, rfl⟩
  · intro v x y n' hcl hcn
    rcases hcur : v.current_node with - | n
    · simp only [on_click, hcl, if_true, hcur] at hcn
      rw [Option.some.injEq] at hcn
      subst hcn
      exact ⟨_, _, rfl⟩
    · simp only [on_click, hcl, if_true, hcur] at hcn
      rw [Option.some.injEq] at hcn
      subst hcn
      refine ⟨ratTrunc ((x - v.pan_x) / effective_scale v),
        ratTrunc ((y - v.pan_y) / effective_scale v), ?_⟩
      simp only
      rw [List.getLast?_concat]
      rfl
  · intro v x y n hcl hed hfp
    simp only [on_right_click, hcl, Bool.false_eq_true, if_false, hed, hfp]
  · intro v px py n n' hed hres
    rcases hseg : find_segment_for_point v px py n 25 with - | i
    · simp only [add_point_to_line, hed, hseg] at hres
      rw [Option.some.injEq] at hres
      left
      rw [← hres]
    · simp only [add_point_to_line, hed, hseg, Option.some.injEq] at hres
      right
      exact ⟨i, by rw [← hres]⟩
  · refine ⟨sampleNode [((1 : ℚ) / 2, 0), (9, 5)], ((1 : ℚ) / 2, 0), ?_, ?_, ?_⟩
    · norm_num [on_drag, draggingViewer, initialViewer, sampleNode]
    · norm_num [sampleNode]
    · intro a b hq
      rw [Prod.mk.injEq] at hq
      have h1 : (1 : ℚ) = 2 * (a : ℚ) := by linarith [hq.1]
      have h2 : (1 : ℤ) = 2 * a := by exact_mod_cast h1
      omega

/-- Concrete instance of claim C10: the creation click at screen
`(10, 10)` over the creating-state viewer records the integral document
point `(6, 6)` as the last point of the in-progress node. -/
theorem C10_witness :
    creatingViewer.creating_line = true ∧
    (on_click creatingViewer 10 10).current_node =
      some ({ creatingNode with points := [((6 : ℚ), (6 : ℚ)), (6, 6)] }) ∧
    ∃ a b : ℤ,
      ({ creatingNode with points := [((6 : ℚ), (6 : ℚ)), (6, 6)] } : Node).points.getLast? =
        some ((a : ℚ), (b : ℚ)) := by
  have hcn : (on_click creatingViewer 10 10).current_node =
      some ({ creatingNode with points := [((6 : ℚ), (6 : ℚ)), (6, 6)] }) := by
    norm_num [on_click, creatingViewer, creatingNode, initialViewer, mkStore, sampleNode,
      screen_to_pdf_coords, effective_scale, ratTrunc]
  exact ⟨rfl, hcn, C10_integer_document_points.2.1 creatingViewer 10 10 _ rfl hcn⟩

/-- Concrete instance of claim C9. -/
theorem C9_witness :
    longestSegment [((0 : ℚ), (0 : ℚ)), (10, 0), (10, 10)] = ((0, 0), (10, 0)) :=
  C9_longest_segment.2

/-- Concrete instance of claim C6: two large zoom-in requests followed
by a reset stay within bounds. -/
theorem C6_witness :
    1 / 10 ≤ (([ZoomOp.zoomIn 100 0 0, ZoomOp.zoomIn 100 0 0,
        ZoomOp.zoomOut 1000 0 0]).foldl applyZoomOp initialViewer).zoom_level ∧
    (([ZoomOp.zoomIn 100 0 0, ZoomOp.zoomIn 100 0 0,
        ZoomOp.zoomOut 1000 0 0]).foldl applyZoomOp initialViewer).zoom_level ≤ 5 :=
  C6_zoom_level_always_clamped _
